import Mathlib

/-!
Shallow embedding of the ascii-pipeline rendering core and the alacritty
background-animation playback controller.

Modelling conventions:
* Rust `f32` values are modelled as exact rationals (`ℚ`).  Every theorem in
  this file is insensitive to floating-point rounding error: it either avoids
  the arithmetic entirely (early returns, clamping structure) or evaluates it
  at inputs where `f32` arithmetic is exact.
* Machine integers (`u8`, `u16`, `usize`) are modelled as `Nat` with explicit
  saturation where the source performs an `as` cast from a float.
* `std::time::Duration` and `std::time::Instant` are modelled as `Nat`
  nanosecond counts; `Instant::duration_since` saturates at zero, which is
  `Nat` subtraction.
* Rust slice indexing `xs[i]` is modelled with `List.getD`; the source panics
  on an out-of-range index, and every use below is reached only with indices
  that are in range for the inputs the theorems consider.
* Fallible constructors (Rust `assert!`) are modelled with `Option`.
-/

/-- Source `f32::clamp(self, lo, hi)`. -/
def clampQ (v lo hi : ℚ) : ℚ := max lo (min v hi)

/-- Source `f32::round()`: round half away from zero. -/
def roundQ (q : ℚ) : ℤ := if 0 ≤ q then ⌊q + 1/2⌋ else -⌊-q + 1/2⌋

/-- Source `as u16` cast of a (rounded) float: saturating at the ends of `u16`. -/
def u16OfZ (z : ℤ) : Nat := min z.toNat 65535

/-- Source `as u8` cast of a (rounded) float: saturating at the ends of `u8`. -/
def u8OfZ (z : ℤ) : Nat := min z.toNat 255

/-- Source `as usize` cast of a (rounded) float: saturating at the ends of `usize`. -/
def usizeOfZ (z : ℤ) : Nat := min z.toNat (2 ^ 64 - 1)

/-- Rational stand-in for `f32::sqrt`: exact on perfect squares, which are the
only inputs reached by the theorems below (`sqrtQ 0 = 0`; `f32` square roots
of nonnegative perfect squares are exact).  Negative inputs (NaN in `f32`)
are mapped to `0` and are unreachable from `sobel_map`. -/
def sqrtQ (q : ℚ) : ℚ :=
  if q ≤ 0 then 0 else (Nat.sqrt q.num.toNat : ℚ) / (Nat.sqrt q.den : ℚ)

/-! ## `ascii_render::image_pipeline::resize` -/

/-- Source `TargetGeometry { columns: u16, rows: u16, cell_aspect: f32 }`. -/
structure TargetGeometry where
  columns : Nat
  rows : Nat
  cell_aspect : ℚ
deriving DecidableEq, Inhabited

/-- Source `LayoutPolicy`. -/
inductive LayoutPolicy where
  | FixedColumns (columns : Nat)
  | FitViewport (columns rows : Nat) (cell_aspect : ℚ)
  | ScaleToHeight (rows : Nat) (cell_aspect : ℚ)
deriving DecidableEq, Inhabited

/-- Source `LayoutPolicy::derive`.  `image_rat` is the source's `image_ratio`
(height over width), exact here where `f32` would round. -/
def LayoutPolicy.derive (layout : LayoutPolicy) (source_width source_height : Nat)
    (default_aspect : ℚ) : Option TargetGeometry :=
  if source_width = 0 ∨ source_height = 0 then none
  else
    let image_rat : ℚ := (source_height : ℚ) / (source_width : ℚ)
    match layout with
    | .FixedColumns columns =>
      let columns := max columns 1
      let rows := max (u16OfZ (roundQ (image_rat * columns * default_aspect))) 1
      some ⟨columns, rows, default_aspect⟩
    | .FitViewport columns rows cell_aspect =>
      let columns0 := max columns 1
      let rows_limit := max rows 1
      let rows1 := max (u16OfZ (roundQ (image_rat * columns0 * cell_aspect))) 1
      if rows_limit < rows1 then
        let derived_columns := u16OfZ (roundQ ((rows_limit : ℚ) / (image_rat * cell_aspect)))
        some ⟨min columns0 (max derived_columns 1), rows_limit, cell_aspect⟩
      else
        some ⟨columns0, rows1, cell_aspect⟩
    | .ScaleToHeight rows cell_aspect =>
      let rows := max rows 1
      let columns := u16OfZ (roundQ ((rows : ℚ) / (image_rat * cell_aspect)))
      some ⟨max columns 1, rows, cell_aspect⟩

/-! ## `ascii_render::image_pipeline::adjust` -/

/-- Source `apply_contrast_and_brightness` (in-place update modelled as a map). -/
def apply_contrast_and_brightness (values : List ℚ) (contrast brightness : ℚ) : List ℚ :=
  if contrast = 0 ∧ brightness = 0 then values
  else
    let contrast := clampQ contrast (-255) 255
    let contrast_factor := (259 * (contrast + 255)) / (255 * (259 - contrast))
    let brightness := clampQ (brightness / 255) (-1) 1
    values.map fun value => clampQ (contrast_factor * (value - 1/2) + 1/2 + brightness) 0 1

/-! ## `ascii_render::image_pipeline::edges` -/

/-- Source `EdgeMode`. -/
inductive EdgeMode where
  | None
  | Sobel (threshold : ℚ)
deriving DecidableEq, Inhabited

/-- Source `EdgeSample`. -/
structure EdgeSample where
  active : Bool
  magnitude : ℚ
  angle_degrees : ℚ
deriving DecidableEq, Inhabited

/-- Source `EdgeResult`. -/
inductive EdgeResult where
  | Intensity (values : List ℚ)
  | Orientation (samples : List EdgeSample)

/-- Source `sobel_map`.  The source allocates `vec![0.0; values.len()]` and then
writes the interior pixels `y ∈ 1..height-1`, `x ∈ 1..width-1`; an output
index participates in the double loop exactly when its row/column
decomposition is interior. -/
def sobel_map (values : List ℚ) (width height : Nat) (threshold : ℚ) : List ℚ :=
  let threshold := clampQ threshold 0 1
  if width < 3 ∨ height < 3 then List.replicate values.length 0
  else
    (List.range values.length).map fun idx =>
      let y := idx / width
      let x := idx % width
      if 1 ≤ y ∧ y < height - 1 ∧ 1 ≤ x ∧ x < width - 1 then
        let a := values.getD ((y - 1) * width + (x - 1)) 0
        let b := values.getD ((y - 1) * width + x) 0
        let c := values.getD ((y - 1) * width + (x + 1)) 0
        let d := values.getD (y * width + (x - 1)) 0
        let f := values.getD (y * width + (x + 1)) 0
        let g := values.getD ((y + 1) * width + (x - 1)) 0
        let h := values.getD ((y + 1) * width + x) 0
        let i := values.getD ((y + 1) * width + (x + 1)) 0
        let gx := (-1) * a + 1 * c + (-2) * d + 2 * f + (-1) * g + 1 * i
        let gy := (-1) * a + (-2) * b + (-1) * c + 1 * g + 2 * h + 1 * i
        let magnitude := sqrtQ (gx * gx + gy * gy)
        let normalized := clampQ (magnitude / 4) 0 1
        if threshold ≤ normalized then normalized else 0
      else 0

/-! ## `ascii_render::ascii::gradient` -/

/-- Source `Gradient { chars: Vec<char> }`. -/
structure Gradient where
  chars : List Char
deriving DecidableEq, Inhabited

/-- Source `Gradient::new`: the source `assert!(chars.len() >= 2)` panic is modelled
as `Option`. -/
def Gradient.new (s : String) : Option Gradient :=
  let chars := s.toList
  if 2 ≤ chars.length then some ⟨chars⟩ else none

/-- Source `Gradient::blocks` (the `assert` of `Gradient::new` holds: 5 ≥ 2). -/
def Gradient.blocks : Gradient := ⟨"█▓▒░ ".toList⟩

/-- Source `Gradient::binary`. -/
def Gradient.binary : Gradient := ⟨"01".toList⟩

/-- Source `Gradient::len`. -/
def Gradient.len (g : Gradient) : Nat := g.chars.length

/-- Source `Gradient::clamp_index`. -/
def Gradient.clamp_index (g : Gradient) (value : ℚ) : Nat :=
  let levels : ℚ := ((g.chars.length - 1 : Nat) : ℚ)
  usizeOfZ (roundQ (clampQ (value * levels) 0 levels))

/-- Source `Gradient::char_at`: `self.chars[index.min(self.chars.len() - 1)]`.
The index is in bounds whenever `chars` is nonempty. -/
def Gradient.char_at (g : Gradient) (index : Nat) : Char :=
  g.chars.getD (min index (g.chars.length - 1)) ' '

/-! ## `ascii_render::ascii::grid` -/

/-- Source `CellGlyph`; `fg`/`bg` are RGB byte triples, `alpha` is an `f32`. -/
structure CellGlyph where
  ch : Char
  fg : Nat × Nat × Nat
  bg : Option (Nat × Nat × Nat)
  alpha : ℚ
deriving DecidableEq, Inhabited

/-- Source `CellGlyph::new`. -/
def CellGlyph.new (ch : Char) (intensity : ℚ) : CellGlyph :=
  let intensity := u8OfZ (roundQ (clampQ intensity 0 1 * 255))
  ⟨ch, (intensity, intensity, intensity), none, 1⟩

/-- Source `GlyphGrid`; `GlyphGrid::new` asserts `width*height == cells.len()`
(fail-fast invariant; every construction below satisfies it). -/
structure GlyphGrid where
  width : Nat
  height : Nat
  cells : List CellGlyph
deriving DecidableEq, Inhabited

/-! ## `ascii_render::ascii::mapping` -/

/-- Source `GlyphMapper::map_intensity` (the mapper's only state is its gradient,
passed here explicitly). -/
def map_intensity (gradient : Gradient) (intensities : List ℚ)
    (width height : Nat) : GlyphGrid :=
  let gradient_chars := gradient.chars
  let max_index := gradient_chars.length - 1
  let cells := intensities.map fun value =>
    let normalized := clampQ value 0 1
    let index := usizeOfZ (roundQ (normalized * (max_index : ℚ)))
    let ch := gradient_chars.getD (min index max_index) ' '
    CellGlyph.new ch normalized
  GlyphGrid.mk width height cells

/-- Source `orientation_glyph` (`f32::rem_euclid` by 180). -/
def orientation_glyph (angle : ℚ) : Char :=
  let angle := angle - 180 * ⌊angle / 180⌋
  if 0 ≤ angle ∧ angle < 45/2 then Char.ofNat 45
  else if 45/2 ≤ angle ∧ angle < 135/2 then Char.ofNat 47
  else if 135/2 ≤ angle ∧ angle < 225/2 then Char.ofNat 124
  else if 315/2 ≤ angle ∧ angle < 180 then Char.ofNat 45
  else Char.ofNat 92

/-- Source `GlyphMapper::map_orientation`. -/
def map_orientation (samples : List EdgeSample) (width height : Nat) : GlyphGrid :=
  let cells := samples.map fun sample =>
    if !sample.active then CellGlyph.new ' ' 0
    else CellGlyph.new (orientation_glyph sample.angle_degrees) sample.magnitude
  GlyphGrid.mk width height cells

/-! ## `ascii_render::ascii::series` -/

/-- Source `GlyphGridFrame`; `duration` in nanoseconds. -/
structure GlyphGridFrame where
  grid : GlyphGrid
  duration : Nat
deriving DecidableEq, Inhabited

/-- Source `GlyphGridSeries`; the field `total_duration` mirrors the source's private
field, maintained as the sum of the frame durations by `push_frame`. -/
structure GlyphGridSeries where
  frames : List GlyphGridFrame
  total_duration : Nat
  geometry : Option TargetGeometry
deriving DecidableEq, Inhabited

/-- Sum of the durations of a frame list (used to state the invariant that
the `total_duration` field carries). -/
def sumDurations (frames : List GlyphGridFrame) : Nat :=
  (frames.map GlyphGridFrame.duration).sum

/-- The struct invariant maintained by `push_frame`/`clear`: the
`total_duration` field is the sum of the frame durations. -/
def GlyphGridSeries.wf (s : GlyphGridSeries) : Prop :=
  s.total_duration = sumDurations s.frames

instance (s : GlyphGridSeries) : Decidable s.wf := by
  unfold GlyphGridSeries.wf; infer_instance

/-- Source `GlyphGridSeries::push_frame` (the `debug_assert_eq!` checks are
invariants, not control flow). -/
def GlyphGridSeries.push_frame (s : GlyphGridSeries) (frame : GlyphGridFrame) :
    GlyphGridSeries :=
  let geometry := match s.geometry with
    | some geometry => some geometry
    | none =>
      let columns := frame.grid.width
      let rows := frame.grid.height
      let cell_aspect : ℚ := if columns = 0 then 1 else (rows : ℚ) / (columns : ℚ)
      some ⟨columns, rows, cell_aspect⟩
  { s with geometry := geometry,
           total_duration := s.total_duration + frame.duration,
           frames := s.frames ++ [frame] }

/-- Source `GlyphGridSeries::total_duration()` (the method; zero for an empty
series). -/
def GlyphGridSeries.totalDuration (s : GlyphGridSeries) : Nat :=
  if s.frames.isEmpty then 0 else s.total_duration

/-- Source `GlyphGridSeries::normalize_elapsed` (the `u128` nanosecond remainder is
split into seconds and subsecond nanoseconds and reassembled into a
`Duration`, which is the same nanosecond count). -/
def GlyphGridSeries.normalize_elapsed (s : GlyphGridSeries) (elapsed : Nat) : Nat :=
  if s.frames.length ≤ 1 then 0
  else
    let total := s.totalDuration
    if total = 0 then 0
    else
      let remainder := elapsed % total
      let secs := remainder / 1000000000
      let nanos := remainder % 1000000000
      secs * 1000000000 + nanos

/-- The `for (index, frame) in self.frames.iter().enumerate()` loop of
`frame_index_at`: return the current index when the frame has zero duration
or the remaining time falls inside its span, else subtract and continue. -/
def frameWalk (frames : List GlyphGridFrame) (remaining index : Nat) : Option Nat :=
  match frames with
  | [] => none
  | frame :: rest =>
    if frame.duration = 0 ∨ remaining < frame.duration then some index
    else frameWalk rest (remaining - frame.duration) (index + 1)

/-- Source `GlyphGridSeries::frame_index_at`. -/
def GlyphGridSeries.frame_index_at (s : GlyphGridSeries) (elapsed : Nat) : Option Nat :=
  if s.frames.isEmpty then none
  else if s.frames.length = 1 then some 0
  else
    match frameWalk s.frames (s.normalize_elapsed elapsed) 0 with
    | some index => some index
    | none => some (s.frames.length - 1)

/-- Source `GlyphGridSeries::frame`. -/
def GlyphGridSeries.frame (s : GlyphGridSeries) (index : Nat) : Option GlyphGrid :=
  (s.frames.get? index).map GlyphGridFrame.grid

/-! ## `ascii_render` facade (`lib.rs`) -/

/-- Source `ColorMode`. -/
inductive ColorMode where
  | Luminance
  | ColorAlpha
deriving DecidableEq, Inhabited

/-- One RGBA pixel, channels as bytes. -/
structure Rgba where
  r : Nat
  g : Nat
  b : Nat
  a : Nat
deriving DecidableEq, Inhabited

/-- Modelled from the spec: a decoded raster (pixel buffer, width, height)
produced by the external decoder (`image::DynamicImage` is outside this
repository); `pixels` is the row-major RGBA buffer. -/
structure DynamicImage where
  width : Nat
  height : Nat
  pixels : List Rgba
deriving DecidableEq, Inhabited

/-- Source `DynamicImage::dimensions`. -/
def DynamicImage.dimensions (img : DynamicImage) : Nat × Nat := (img.width, img.height)

/-- Modelled from the spec: the external image-resampling routine
(`image::DynamicImage::resize_exact` with a smooth filter is outside this
repository; the spec fixes only its interface, a raster at exactly the target
dimensions).  A nearest-neighbour stand-in is used; no theorem below depends
on the filter, only on the result having `w * h` pixels and on the identity
case where source and target dimensions coincide. -/
def resize_exact (img : DynamicImage) (w h : Nat) : DynamicImage :=
  ⟨w, h, (List.range (w * h)).map fun idx =>
    let y := idx / w
    let x := idx % w
    img.pixels.getD ((y * img.height / h) * img.width + x * img.width / w) default⟩

/-- The flat RGBA byte buffer of `to_rgba8().into_raw()`. -/
def bytesOfPixels : List Rgba → List Nat
  | [] => []
  | p :: rest => p.r :: p.g :: p.b :: p.a :: bytesOfPixels rest

/-- Source `DynamicImage::to_rgba8().into_raw()`. -/
def DynamicImage.to_rgba8 (img : DynamicImage) : List Nat := bytesOfPixels img.pixels

/-- Modelled from the spec: luminance extraction of the external image
library (`to_luma32f` is outside this repository); one normalized sample per
pixel, here with Rec.709 weights on `[0,1]` channel values.  No theorem below
depends on the weights. -/
def DynamicImage.to_luma32f (img : DynamicImage) : List ℚ :=
  img.pixels.map fun p =>
    (2126 * (p.r : ℚ) + 7152 * (p.g : ℚ) + 722 * (p.b : ℚ)) / (10000 * 255)

/-- Source `adjust::extract_luma`. -/
def extract_luma (img : DynamicImage) (invert : Bool) : List ℚ :=
  img.to_luma32f.map fun lum =>
    clampQ (if invert then 1 - lum else lum) 0 1

/-- Source `AsciiError`. -/
inductive AsciiError where
  | Image
  | InvalidLayout
deriving DecidableEq, Inhabited

/-- Source `AsciiOptions`. -/
structure AsciiOptions where
  gradient : Gradient
  invert : Bool
  brightness : ℚ
  contrast : ℚ
  font_aspect : ℚ
  edge_mode : EdgeMode
  color_mode : ColorMode
deriving DecidableEq, Inhabited

/-- Source `AsciiOptions::default` (`font_aspect: 0.55`). -/
def AsciiOptions.default : AsciiOptions :=
  ⟨Gradient.blocks, false, 0, 0, 11/20, EdgeMode.None, ColorMode.Luminance⟩

/-- Source `RenderOutput`. -/
structure RenderOutput where
  grid : GlyphGrid
  geometry : TargetGeometry
  assumed_font_aspect : ℚ
deriving DecidableEq, Inhabited

/-- Source `TRANSPARENT_ALPHA_THRESHOLD` (the `f32` literal `0.001`, whose rounding
error is far below the `1/255` alpha quantum and never changes a
comparison). -/
def TRANSPARENT_ALPHA_THRESHOLD : ℚ := 1/1000

/-- Source `AsciiRenderer::render_image` (the renderer itself is stateless). -/
def render_image (image : DynamicImage) (layout : LayoutPolicy)
    (options : AsciiOptions) : Except AsciiError RenderOutput :=
  let (width, height) := image.dimensions
  match layout.derive width height options.font_aspect with
  | none => .error .InvalidLayout
  | some geometry =>
    let resized := resize_exact image geometry.columns geometry.rows
    let pixel_data := resized.to_rgba8
    let luminance := extract_luma resized options.invert
    let luminance := apply_contrast_and_brightness luminance options.contrast options.brightness
    let map := match options.edge_mode with
      | .None => EdgeResult.Intensity luminance
      | .Sobel threshold =>
        EdgeResult.Intensity (sobel_map luminance geometry.columns geometry.rows threshold)
    let grid := match map with
      | .Intensity intensities => map_intensity options.gradient intensities geometry.columns geometry.rows
      | .Orientation samples => map_orientation samples geometry.columns geometry.rows
    let pixel_count := pixel_data.length / 4
    let grid :=
      if pixel_count = grid.cells.length then
        { grid with cells := grid.cells.mapIdx fun idx cell =>
          let start := idx * 4
          let r := pixel_data.getD start 0
          let g := pixel_data.getD (start + 1) 0
          let b := pixel_data.getD (start + 2) 0
          let alpha := clampQ ((pixel_data.getD (start + 3) 0 : ℚ) / 255) 0 1
          let cell := { cell with fg := (r, g, b), alpha := alpha }
          if alpha ≤ TRANSPARENT_ALPHA_THRESHOLD then { cell with ch := ' ' } else cell }
      else grid
    .ok ⟨grid, geometry, options.font_aspect⟩

/-! ## `alacritty::display::background` -/

/-- Source `ADVANCE_INTERVAL = Duration::from_millis(120)`, in nanoseconds. -/
def ADVANCE_INTERVAL : Nat := 120000000

/-- Source `f32::EPSILON` = 2⁻²³, the threshold of the cell-aspect guard. -/
def epsF32 : ℚ := 1/8388608

/-- Modelled from the spec: the host viewport collaborator (`SizeInfo` lives
outside this repository) supplies `columns ≥ 0`, `lines ≥ 0` and per-cell
width/height. -/
structure SizeInfo where
  columns : Nat
  screen_lines : Nat
  cell_width : ℚ
  cell_height : ℚ
deriving DecidableEq, Inhabited

/-- Modelled from the spec: the host palette collaborator supplies a default
background color. -/
structure ColorList where
  background : Nat × Nat × Nat
deriving DecidableEq, Inhabited

/-- Modelled from the spec: a host-displayable cell (alacritty's
`RenderableCell`, outside src/): character, position, colors, background
alpha, underline color mirroring the foreground, and the always-set "dim"
style flag. -/
structure RenderableCell where
  character : Char
  point : Nat × Nat
  fg : Nat × Nat × Nat
  bg : Nat × Nat × Nat
  bg_alpha : ℚ
  underline : Nat × Nat × Nat
  flags_dim : Bool
deriving DecidableEq, Inhabited

/-- Modelled from the spec: `GlyphFrameSeries` (declared in `ascii_render`
but its definition is not under src/; only its callers are).  Per the spec's
Frame Series: frames sharing one geometry, stored here as the flat cell
buffer its callers build (`width * height` cells per frame). -/
structure GlyphFrameSeries where
  width : Nat
  height : Nat
  frame_count : Nat
  cells : List CellGlyph
deriving DecidableEq, Inhabited

/-- Source `GlyphFrameSeries::new`. -/
def GlyphFrameSeries.new (width height frame_count : Nat) (cells : List CellGlyph) :
    GlyphFrameSeries := ⟨width, height, frame_count, cells⟩

/-- Source `GlyphFrameSeries::is_empty`, per the spec's "no renderable frames". -/
def GlyphFrameSeries.is_empty (v : GlyphFrameSeries) : Bool := v.cells.isEmpty

/-- Source `GlyphFrameSeries::frame`: the cell slab of one frame, `none` out of
range (spec: index-based lookup returns None for out-of-range indices). -/
def GlyphFrameSeries.frame (v : GlyphFrameSeries) (index : Nat) : Option (List CellGlyph) :=
  if index < v.frame_count then
    some ((v.cells.drop (index * (v.width * v.height))).take (v.width * v.height))
  else none

/-- Source `BackgroundFrame`; `delay` in nanoseconds. -/
structure BackgroundFrame where
  image : DynamicImage
  delay : Nat
deriving DecidableEq, Inhabited

/-- Source `BackgroundAnimation`; `last_update` is an `Instant` in nanoseconds. -/
structure BackgroundAnimation where
  volume : GlyphFrameSeries
  current_frame_index : Nat
  last_update : Nat
  needs_full_redraw : Bool
  source_frames : List BackgroundFrame
  frame_delays : List Nat
  color_mode : ColorMode
deriving DecidableEq, Inhabited

/-- The body of `create_volume`'s `for frame in frames` loop: fold state is
`(frame_dimensions, delays, cells)`. -/
def createVolumeStep (layout : LayoutPolicy) (options : AsciiOptions)
    (acc : Option (Nat × Nat) × List Nat × List CellGlyph) (frame : BackgroundFrame) :
    Option (Nat × Nat) × List Nat × List CellGlyph :=
  let (frame_dimensions, delays, cells) := acc
  match render_image frame.image layout options with
  | .error _ => acc
  | .ok output =>
    let grid := output.grid
    if grid.width = 0 ∨ grid.height = 0 then acc
    else
      match frame_dimensions with
      | some (expected_width, expected_height) =>
        if expected_width ≠ grid.width ∨ expected_height ≠ grid.height then acc
        else (frame_dimensions, delays ++ [frame.delay], cells ++ grid.cells)
      | none =>
        (some (grid.width, grid.height), delays ++ [frame.delay], cells ++ grid.cells)

/-- Source `BackgroundAnimation::create_volume`. -/
def create_volume (size : SizeInfo) (frames : List BackgroundFrame)
    (color_mode : ColorMode) : Option (GlyphFrameSeries × List Nat) :=
  if frames.isEmpty then none
  else
    let columns_limit := min size.columns 65535
    let rows_limit := min size.screen_lines 65535
    if columns_limit = 0 ∨ rows_limit = 0 then none
    else
      let cell_aspect := if epsF32 < size.cell_width
        then size.cell_width / size.cell_height else 1
      let layout := LayoutPolicy.FitViewport columns_limit rows_limit cell_aspect
      let options := { AsciiOptions.default with color_mode := color_mode }
      match frames.foldl (createVolumeStep layout options) (none, [], []) with
      | (none, _, _) => none
      | (some (frame_width, frame_height), delays, cells) =>
        let frame_count := delays.length
        if frame_count = 0 then none
        else
          let frame_stride := frame_width * frame_height
          if frame_stride = 0 then none
          else if cells.length ≠ frame_stride * frame_count then none
          else some (GlyphFrameSeries.new frame_width frame_height frame_count cells, delays)

/-- Source `BackgroundAnimation::on_resize`; the source stamps `Instant::now()`,
passed here explicitly as `now`. -/
def BackgroundAnimation.on_resize (st : BackgroundAnimation) (now : Nat)
    (size : SizeInfo) : BackgroundAnimation :=
  let (volume, frame_delays) :=
    match create_volume size st.source_frames st.color_mode with
    | some (volume, frame_delays) => (volume, frame_delays)
    | none => (GlyphFrameSeries.new 0 0 0 [], ([] : List Nat))
  { st with volume := volume, frame_delays := frame_delays,
            current_frame_index := 0, last_update := now,
            needs_full_redraw := true }

/-- Source `BackgroundAnimation::is_active`. -/
def BackgroundAnimation.is_active (st : BackgroundAnimation) (size : SizeInfo) : Bool :=
  decide (0 < size.columns) && decide (0 < size.screen_lines)
    && decide (0 < st.volume.width) && decide (0 < st.volume.height)
    && decide (0 < st.volume.frame_count) && !st.volume.is_empty

/-- Source `BackgroundAnimation::advance_frame`. -/
def BackgroundAnimation.advance_frame (st : BackgroundAnimation) : BackgroundAnimation :=
  if st.volume.frame_count ≤ 1 then st
  else { st with current_frame_index := (st.current_frame_index + 1) % st.volume.frame_count }

/-- Source `BackgroundAnimation::current_frame_delay`. -/
def BackgroundAnimation.current_frame_delay (st : BackgroundAnimation) : Nat :=
  if st.frame_delays.isEmpty then ADVANCE_INTERVAL
  else
    let index := min st.current_frame_index (st.frame_delays.length - 1)
    let delay := st.frame_delays.getD index 0
    if delay = 0 then ADVANCE_INTERVAL else delay

/-- Source `BackgroundAnimation::update`; state passing is explicit, the returned
`Bool` is the source's return value.  `now.duration_since(self.last_update)`
saturates at zero, i.e. `Nat` subtraction. -/
def BackgroundAnimation.update (st : BackgroundAnimation) (now : Nat)
    (size : SizeInfo) : BackgroundAnimation × Bool :=
  if !(st.is_active size) then (st, false)
  else if st.needs_full_redraw then
    ({ st with needs_full_redraw := false, last_update := now }, true)
  else if now - st.last_update < st.current_frame_delay then (st, false)
  else ({ st with last_update := now }.advance_frame, true)

/-- Source `BackgroundAnimation::current_frame_cells` (`unwrap_or(&[])`). -/
def BackgroundAnimation.current_frame_cells (st : BackgroundAnimation) : List CellGlyph :=
  (st.volume.frame st.current_frame_index).getD []

/-- Source `BackgroundAnimation::render_cells`; the pushes into `out` are returned
as a list, the nested `line`/`column` loops as a row-major range map. -/
def BackgroundAnimation.render_cells (st : BackgroundAnimation) (colors : ColorList)
    (size : SizeInfo) : List RenderableCell :=
  if !(st.is_active size) then []
  else
    let width := st.volume.width
    if width = 0 then []
    else
      let visible_columns := min size.columns width
      let visible_lines := min size.screen_lines st.volume.height
      if visible_columns = 0 ∨ visible_lines = 0 then []
      else
        let frame_cells := st.current_frame_cells
        if frame_cells.isEmpty then []
        else
          let default_bg := colors.background
          (List.range (visible_lines * visible_columns)).map fun k =>
            let line := k / visible_columns
            let column := k % visible_columns
            let idx := line * width + column
            let cell := frame_cells.getD idx default
            let fg := cell.fg
            let bgPair : (Nat × Nat × Nat) × ℚ := match cell.bg with
              | some color => (color, 1)
              | none => (default_bg, 0)
            ⟨cell.ch, (line, column), fg, bgPair.1, bgPair.2, fg, true⟩

/-! ## Theorems -/

/-- C6: `apply_contrast_and_brightness` with contrast = 0 and brightness = 0
is the bit-exact identity on every luminance field: the function returns its
input untouched (the source's early return fires before any sample is
read or written). -/
theorem apply_contrast_and_brightness_zero_is_id (values : List ℚ) :
    apply_contrast_and_brightness values 0 0 = values := by
  simp [apply_contrast_and_brightness]

/-- C10: on every gradient produced by `Gradient::new` (hence with at least
two glyphs), `char_at` is total: for every index the accessed position
`min index (len - 1)` is in bounds (no panic), the result is
`chars[min(index, len-1)]`, and any out-of-range index is clamped to the
last glyph. -/
theorem char_at_total (s : String) (g : Gradient) (hg : Gradient.new s = some g)
    (index : Nat) :
    min index (g.chars.length - 1) < g.chars.length ∧
    g.char_at index = g.chars.getD (min index (g.chars.length - 1)) ' ' ∧
    (g.chars.length ≤ index →
      g.char_at index = g.chars.getD (g.chars.length - 1) ' ') := by
  have hlen : 2 ≤ g.chars.length := by
    simp only [Gradient.new] at hg
    split at hg
    next h2 => cases hg; exact h2
    next h2 => cases hg
  refine ⟨by omega, rfl, ?_⟩
  intro hidx
  unfold Gradient.char_at
  congr 1
  omega

/-- Witness for C10 at the binary gradient and the out-of-range index 5. -/
theorem char_at_total_witness :
    Gradient.new "01" = some Gradient.binary ∧
    (min 5 (Gradient.binary.chars.length - 1) < Gradient.binary.chars.length ∧
     Gradient.binary.char_at 5 =
       Gradient.binary.chars.getD (min 5 (Gradient.binary.chars.length - 1)) ' ' ∧
     (Gradient.binary.chars.length ≤ 5 →
       Gradient.binary.char_at 5 =
         Gradient.binary.chars.getD (Gradient.binary.chars.length - 1) ' ')) :=
  ⟨by decide, char_at_total "01" Gradient.binary (by decide) 5⟩

/-- C3 counterexample: with a supplied column cap of 0 (and row cap 5),
`FitViewport` derivation on a 1×1 source succeeds but returns 1 column,
which exceeds the supplied column cap 0 — the claim's "never exceeds the
supplied caps for every supplied cap" fails at cap 0. -/
theorem fitViewport_cap_zero_counterexample :
    ((LayoutPolicy.FitViewport 0 5 1).derive 1 1 1).map TargetGeometry.columns =
      some 1 ∧ ¬ (1 ≤ 0) := by
  refine ⟨?_, by omega⟩
  norm_num [LayoutPolicy.derive, u16OfZ, roundQ]

/-- C3 (amended): for every source width > 0 and height > 0, every
cellAspect > 0, and every supplied column cap ≥ 1 and row cap ≥ 1,
`FitViewport` derivation succeeds and the resulting geometry exceeds
neither cap.  (Caps of 0 are first clamped to 1 by the source, so the
bound holds for all caps in the form `max cap 1`; the claim's universal
form is amended to caps ≥ 1.) -/
theorem fitViewport_within_caps (source_width source_height columns rows : Nat)
    (cell_aspect default_aspect : ℚ)
    (hw : 0 < source_width) (hh : 0 < source_height) (ha : 0 < cell_aspect)
    (hc : 1 ≤ columns) (hr : 1 ≤ rows) :
    ∃ geometry,
      (LayoutPolicy.FitViewport columns rows cell_aspect).derive
          source_width source_height default_aspect = some geometry ∧
      geometry.columns ≤ columns ∧ geometry.rows ≤ rows := by
  have hcond : ¬ (source_width = 0 ∨ source_height = 0) := by omega
  unfold LayoutPolicy.derive
  simp only [hcond, if_false]
  split
  · refine ⟨_, rfl, ?_, ?_⟩ <;> dsimp only <;> omega
  · refine ⟨_, rfl, ?_, ?_⟩ <;> dsimp only <;> omega

/-- Witness for C3 (amended) at a 1×1 source with caps 3 and 2. -/
theorem fitViewport_within_caps_witness :
    0 < 1 ∧ (0 : ℚ) < 1 ∧ 1 ≤ 3 ∧ 1 ≤ 2 ∧
    ∃ geometry,
      (LayoutPolicy.FitViewport 3 2 1).derive 1 1 1 = some geometry ∧
      geometry.columns ≤ 3 ∧ geometry.rows ≤ 2 :=
  ⟨by omega, by norm_num, by omega, by omega,
    fitViewport_within_caps 1 1 3 2 1 1 (by omega) (by omega) (by norm_num)
      (by omega) (by omega)⟩

/-- C8: a single-frame series yields frame index 0 at every elapsed time,
and more generally every non-empty series whose total duration is zero
deterministically yields frame index 0. -/
theorem frame_index_at_zero_total (s : GlyphGridSeries) (elapsed : Nat) :
    (s.frames.length = 1 → s.frame_index_at elapsed = some 0) ∧
    (s.wf → s.frames ≠ [] → s.totalDuration = 0 →
      s.frame_index_at elapsed = some 0) := by
  constructor
  · intro h1
    unfold GlyphGridSeries.frame_index_at
    have hemp : s.frames.isEmpty = false := by
      cases hf : s.frames
      · rw [hf] at h1; simp at h1
      · rfl
    simp [hemp, h1]
  · intro hwf hne hz
    unfold GlyphGridSeries.frame_index_at
    cases hf : s.frames with
    | nil => exact absurd hf hne
    | cons fr rest =>
      have hemp : (fr :: rest).isEmpty = false := rfl
      have hsum : sumDurations (fr :: rest) = 0 := by
        unfold GlyphGridSeries.totalDuration at hz
        rw [hf] at hz
        simp only [hemp, Bool.false_eq_true, if_false] at hz
        rw [← hf, ← hwf]
        exact hz
      have hf0 : fr.duration = 0 := by
        unfold sumDurations at hsum
        simp only [List.map_cons, List.sum_cons] at hsum
        omega
      by_cases hlen : (fr :: rest).length = 1
      · simp [hemp, hlen]
      · simp [hemp, hlen, frameWalk, hf0]

/-- Witness series for C8: one frame of nonzero duration. -/
def singleFrameSeries : GlyphGridSeries :=
  ⟨[⟨⟨0, 0, []⟩, 7⟩], 7, none⟩

/-- Witness for C8: the single-frame series yields index 0 at a large
elapsed time. -/
theorem frame_index_at_zero_total_witness :
    singleFrameSeries.frames.length = 1 ∧
    singleFrameSeries.frame_index_at 987654321098 = some 0 :=
  ⟨by decide, (frame_index_at_zero_total singleFrameSeries 987654321098).1 (by decide)⟩

/-- C5: after `on_resize` with a viewport of zero columns or zero lines the
controller is inactive for that viewport: the rebuilt series is the empty
one, `is_active` is false, `update` reports no change and leaves the state
exactly as the resize reset left it, and `render_cells` emits no cells. -/
theorem on_resize_zero_viewport_inactive (st : BackgroundAnimation)
    (now now2 : Nat) (size : SizeInfo) (colors : ColorList)
    (hz : size.columns = 0 ∨ size.screen_lines = 0) :
    (st.on_resize now size).volume = GlyphFrameSeries.new 0 0 0 [] ∧
    (st.on_resize now size).is_active size = false ∧
    (st.on_resize now size).update now2 size = (st.on_resize now size, false) ∧
    (st.on_resize now size).render_cells colors size = [] := by
  have hact : ∀ st' : BackgroundAnimation, st'.is_active size = false := by
    intro st'
    unfold BackgroundAnimation.is_active
    rcases hz with hz | hz <;> simp [hz]
  have hvol : (st.on_resize now size).volume = GlyphFrameSeries.new 0 0 0 [] := by
    unfold BackgroundAnimation.on_resize
    have hcv : create_volume size st.source_frames st.color_mode = none := by
      unfold create_volume
      by_cases he : st.source_frames.isEmpty = true
      · rw [if_pos he]
      · rw [if_neg he]
        dsimp only
        rw [if_pos (show min size.columns 65535 = 0 ∨ min size.screen_lines 65535 = 0
          by omega)]
    rw [hcv]
  refine ⟨hvol, hact _, ?_, ?_⟩
  · unfold BackgroundAnimation.update
    rw [hact]
    simp
  · unfold BackgroundAnimation.render_cells
    rw [hact]
    simp

/-- Witness controller for C5 and C4: an active-looking three-frame 1×1
animation with delays 0ns, 50ms, 0ns. -/
def witnessAnimation : BackgroundAnimation :=
  { volume := ⟨1, 1, 3, [CellGlyph.new ' ' 0, CellGlyph.new ' ' 0, CellGlyph.new ' ' 0]⟩,
    current_frame_index := 0,
    last_update := 1000,
    needs_full_redraw := false,
    source_frames := [],
    frame_delays := [0, 50000000, 0],
    color_mode := ColorMode.Luminance }

/-- Witness for C5: resizing to a zero-column viewport deactivates the
witness controller. -/
theorem on_resize_zero_viewport_inactive_witness :
    ((⟨0, 24, 1, 2⟩ : SizeInfo).columns = 0 ∨
      (⟨0, 24, 1, 2⟩ : SizeInfo).screen_lines = 0) ∧
    ((witnessAnimation.on_resize 5000 ⟨0, 24, 1, 2⟩).volume =
        GlyphFrameSeries.new 0 0 0 [] ∧
      (witnessAnimation.on_resize 5000 ⟨0, 24, 1, 2⟩).is_active ⟨0, 24, 1, 2⟩ = false ∧
      (witnessAnimation.on_resize 5000 ⟨0, 24, 1, 2⟩).update 6000 ⟨0, 24, 1, 2⟩ =
        (witnessAnimation.on_resize 5000 ⟨0, 24, 1, 2⟩, false) ∧
      (witnessAnimation.on_resize 5000 ⟨0, 24, 1, 2⟩).render_cells ⟨(0, 0, 0)⟩
        ⟨0, 24, 1, 2⟩ = []) :=
  ⟨Or.inl rfl,
    on_resize_zero_viewport_inactive witnessAnimation 5000 6000 ⟨0, 24, 1, 2⟩
      ⟨(0, 0, 0)⟩ (Or.inl rfl)⟩

/-- C4: when the frame-delay list is empty or the current frame's delay
(at the clamped index the source reads) is exactly zero, the effective
delay is the 120ms fallback `ADVANCE_INTERVAL`; consequently, with no full
redraw pending, `update now` reports no change and leaves the state
untouched whenever `now` minus the last-advance timestamp is below 120ms. -/
theorem zero_delay_uses_fallback (st : BackgroundAnimation) (now : Nat)
    (size : SizeInfo)
    (hdelay : st.frame_delays = [] ∨
      st.frame_delays.getD
        (min st.current_frame_index (st.frame_delays.length - 1)) 0 = 0)
    (hredraw : st.needs_full_redraw = false)
    (hnow : now - st.last_update < ADVANCE_INTERVAL) :
    st.current_frame_delay = ADVANCE_INTERVAL ∧
    st.update now size = (st, false) := by
  have hd : st.current_frame_delay = ADVANCE_INTERVAL := by
    unfold BackgroundAnimation.current_frame_delay
    rcases hdelay with hdelay | hdelay
    · simp [hdelay]
    · by_cases he : st.frame_delays.isEmpty = true
      · rw [if_pos he]
      · rw [if_neg he]
        dsimp only
        rw [if_pos hdelay]
  refine ⟨hd, ?_⟩
  unfold BackgroundAnimation.update
  cases hact : st.is_active size
  · simp [hact]
  · simp [hact, hredraw, hd, hnow]

/-- Witness for C4: the three-frame animation with delays 0, 50ms, 0 at
frame 0 does not advance 119ms after its last update. -/
theorem zero_delay_uses_fallback_witness :
    (witnessAnimation.frame_delays = [] ∨
      witnessAnimation.frame_delays.getD
        (min witnessAnimation.current_frame_index
          (witnessAnimation.frame_delays.length - 1)) 0 = 0) ∧
    witnessAnimation.needs_full_redraw = false ∧
    119999000 - witnessAnimation.last_update < ADVANCE_INTERVAL ∧
    (witnessAnimation.current_frame_delay = ADVANCE_INTERVAL ∧
      witnessAnimation.update 119999000 ⟨80, 24, 1, 2⟩ = (witnessAnimation, false)) :=
  ⟨Or.inr (by decide), rfl, by decide,
    zero_delay_uses_fallback witnessAnimation 119999000 ⟨80, 24, 1, 2⟩
      (Or.inr (by decide)) rfl (by decide)⟩

/-- Sum of durations of a constant-duration frame list. -/
lemma sumDurations_const (frames : List GlyphGridFrame) (D : Nat)
    (h : ∀ f ∈ frames, f.duration = D) :
    sumDurations frames = frames.length * D := by
  induction frames with
  | nil => simp [sumDurations]
  | cons fr rest ih =>
    have hfr : fr.duration = D := h fr (List.mem_cons_self _ _)
    have hrest := ih fun f hf => h f (List.mem_cons_of_mem _ hf)
    unfold sumDurations at hrest ⊢
    simp only [List.map_cons, List.sum_cons, List.length_cons, hfr, hrest]
    ring

/-- C7: a series of frames that all share one nonzero duration D is
periodic in elapsed time with period length × D: `frame_index_at` gives
the same index at `t` and at `t + N×D`. -/
theorem frame_index_at_periodic (s : GlyphGridSeries) (D t : Nat)
    (hwf : s.wf) (hD : ∀ f ∈ s.frames, f.duration = D) (hD0 : D ≠ 0) :
    s.frame_index_at (t + s.frames.length * D) = s.frame_index_at t := by
  have hnorm : s.normalize_elapsed (t + s.frames.length * D) =
      s.normalize_elapsed t := by
    unfold GlyphGridSeries.normalize_elapsed
    by_cases h1 : s.frames.length ≤ 1
    · simp [h1]
    · have hne : s.frames.isEmpty = false := by
        cases hf : s.frames
        · rw [hf] at h1; simp at h1
        · rfl
      have htot : s.totalDuration = s.frames.length * D := by
        unfold GlyphGridSeries.totalDuration
        rw [hne]
        simp only [Bool.false_eq_true, if_false]
        rw [hwf]
        exact sumDurations_const _ _ hD
      rw [htot]
      have hz : s.frames.length * D ≠ 0 := by
        have : s.frames.length ≠ 0 := by omega
        exact Nat.mul_ne_zero this hD0
      simp only [h1, if_false, hz, Nat.add_mod_right]
  unfold GlyphGridSeries.frame_index_at
  rw [hnorm]

/-- Witness series for C7: two empty-grid frames of duration 3ns each. -/
def twoFrameSeries : GlyphGridSeries :=
  ⟨[⟨⟨0, 0, []⟩, 3⟩, ⟨⟨0, 0, []⟩, 3⟩], 6, none⟩

/-- Witness for C7 at t = 4 and period 2 × 3. -/
theorem frame_index_at_periodic_witness :
    twoFrameSeries.wf ∧ 3 ≠ 0 ∧
    twoFrameSeries.frame_index_at (4 + twoFrameSeries.frames.length * 3) =
      twoFrameSeries.frame_index_at 4 :=
  ⟨by decide, by decide,
    frame_index_at_periodic twoFrameSeries 3 4 (by decide) (by decide) (by decide)⟩

/-- The walk's selection test at position k of a frame list: the frame has
zero duration, or the normalized remaining time lies strictly below the
cumulative duration of frames 0..k. -/
def listHit (frames : List GlyphGridFrame) (remaining k : Nat) : Prop :=
  (frames.getD k default).duration = 0 ∨
    remaining < sumDurations (frames.take (k + 1))

instance (frames : List GlyphGridFrame) (remaining k : Nat) :
    Decidable (listHit frames remaining k) := by
  unfold listHit; infer_instance

/-- Characterization of the source's frame walk: it returns the smallest
position satisfying `listHit` (offset by the start index), or `none` when no
position does. -/
lemma frameWalk_characterization (frames : List GlyphGridFrame)
    (remaining index : Nat) :
    (frameWalk frames remaining index = none ∧
      ∀ j < frames.length, ¬ listHit frames remaining j) ∨
    (∃ k, k < frames.length ∧ frameWalk frames remaining index = some (index + k) ∧
      listHit frames remaining k ∧ ∀ j < k, ¬ listHit frames remaining j) := by
  induction frames generalizing remaining index with
  | nil =>
    left
    exact ⟨rfl, by simp⟩
  | cons fr rest ih =>
    have hc0 : listHit (fr :: rest) remaining 0 ↔
        (fr.duration = 0 ∨ remaining < fr.duration) := by
      unfold listHit sumDurations
      simp
    by_cases hc : fr.duration = 0 ∨ remaining < fr.duration
    · right
      refine ⟨0, by simp, ?_, hc0.mpr hc, by omega⟩
      simp [frameWalk, hc]
    · have hrem : fr.duration ≤ remaining := by omega
      have hshift : ∀ k, listHit rest (remaining - fr.duration) k ↔
          listHit (fr :: rest) remaining (k + 1) := by
        intro k
        unfold listHit
        rw [List.getD_cons_succ, List.take_succ_cons]
        unfold sumDurations
        rw [List.map_cons, List.sum_cons]
        omega
      have hwalk : frameWalk (fr :: rest) remaining index =
          frameWalk rest (remaining - fr.duration) (index + 1) := by
        simp [frameWalk, hc]
      rcases ih (remaining - fr.duration) (index + 1) with
        ⟨hnone, hall⟩ | ⟨k, hk, hsome, hhit, hmin⟩
      · left
        refine ⟨hwalk.trans hnone, ?_⟩
        intro j hj
        cases j with
        | zero => rw [hc0]; exact hc
        | succ j' =>
          rw [← hshift]
          exact hall j' (by simpa using hj)
      · right
        refine ⟨k + 1, by simpa using hk, ?_, (hshift k).mp hhit, ?_⟩
        · rw [hwalk, hsome]
          congr 1
          omega
        · intro j hj
          cases j with
          | zero => rw [hc0]; exact hc
          | succ j' =>
            rw [← hshift]
            exact hmin j' (by omega)

/-- A two-frame series whose first frame has zero duration (durations 0ns
and 5ns, total 5ns). -/
def zeroHeadSeries : GlyphGridSeries :=
  ⟨[⟨⟨0, 0, []⟩, 0⟩, ⟨⟨0, 0, []⟩, 5⟩], 5, none⟩

/-- C2 counterexample: in the two-frame series with durations [0ns, 5ns]
(total 5ns, two frames) at elapsed 3ns, `frame_index_at` selects frame 0
even though the normalized elapsed (3) does not lie below frame 0's
cumulative duration span (0) while it does lie below frame 1's (5): a
zero-duration frame IS selected by the walk, contradicting the claim that
zero-duration spans are empty and never selected (which would give index
1, the smallest k with 3 < cumulative duration). -/
theorem frame_index_at_zero_duration_counterexample :
    2 ≤ zeroHeadSeries.frames.length ∧ zeroHeadSeries.totalDuration ≠ 0 ∧
    zeroHeadSeries.frame_index_at 3 = some 0 ∧
    ¬ (zeroHeadSeries.normalize_elapsed 3 <
        sumDurations (zeroHeadSeries.frames.take 1)) ∧
    zeroHeadSeries.normalize_elapsed 3 <
      sumDurations (zeroHeadSeries.frames.take 2) := by
  decide

/-- C2 (amended): for every series with at least two frames and nonzero
total duration, `frame_index_at` returns the smallest k such that frame k
has zero duration or the elapsed time reduced modulo the total duration is
strictly below the cumulative duration of frames 0..k — a zero-duration
frame reached by the walk is selected immediately — and the last frame
absorbs any remainder when no frame is hit. -/
theorem frame_index_at_walk_characterization (s : GlyphGridSeries)
    (elapsed : Nat) (h2 : 2 ≤ s.frames.length) (ht : s.totalDuration ≠ 0) :
    ∃ i, s.frame_index_at elapsed = some i ∧ i < s.frames.length ∧
      ((listHit s.frames (s.normalize_elapsed elapsed) i ∧
          ∀ j < i, ¬ listHit s.frames (s.normalize_elapsed elapsed) j) ∨
        (i = s.frames.length - 1 ∧
          ∀ j < s.frames.length,
            ¬ listHit s.frames (s.normalize_elapsed elapsed) j)) := by
  have hne : s.frames.isEmpty = false := by
    cases hf : s.frames
    · rw [hf] at h2; simp at h2
    · rfl
  have hlen1 : s.frames.length ≠ 1 := by omega
  unfold GlyphGridSeries.frame_index_at
  simp only [hne, Bool.false_eq_true, if_false, hlen1]
  rcases frameWalk_characterization s.frames (s.normalize_elapsed elapsed) 0 with
    ⟨hnone, hall⟩ | ⟨k, hk, hsome, hhit, hmin⟩
  · rw [hnone]
    exact ⟨s.frames.length - 1, rfl, by omega, Or.inr ⟨rfl, hall⟩⟩
  · rw [hsome]
    exact ⟨k, by simp, hk, Or.inl ⟨hhit, hmin⟩⟩

/-- Witness for C2 (amended) at the zero-head series and elapsed 3ns. -/
theorem frame_index_at_walk_characterization_witness :
    2 ≤ zeroHeadSeries.frames.length ∧ zeroHeadSeries.totalDuration ≠ 0 ∧
    ∃ i, zeroHeadSeries.frame_index_at 3 = some i ∧
      i < zeroHeadSeries.frames.length ∧
      ((listHit zeroHeadSeries.frames (zeroHeadSeries.normalize_elapsed 3) i ∧
          ∀ j < i, ¬ listHit zeroHeadSeries.frames
            (zeroHeadSeries.normalize_elapsed 3) j) ∨
        (i = zeroHeadSeries.frames.length - 1 ∧
          ∀ j < zeroHeadSeries.frames.length,
            ¬ listHit zeroHeadSeries.frames
              (zeroHeadSeries.normalize_elapsed 3) j)) :=
  ⟨by decide, by decide,
    frame_index_at_walk_characterization zeroHeadSeries 3 (by decide) (by decide)⟩

/-- Reading a replicated list at an in-range index gives the constant. -/
lemma getD_replicate_of_lt (n : Nat) (c : ℚ) (i : Nat) (h : i < n) :
    (List.replicate n c).getD i 0 = c := by
  rw [List.getD_eq_getElem _ _ (by simpa using h)]
  simp

/-- C9: the Sobel map of a constant-valued luminance field is exactly zero
everywhere, for every width, height and threshold: interior gradients
cancel exactly and the one-pixel border (and every degenerate dimension)
is zero by construction. -/
theorem sobel_map_uniform_zero (w h : Nat) (c threshold : ℚ) :
    sobel_map (List.replicate (w * h) c) w h threshold =
      List.replicate (w * h) 0 := by
  unfold sobel_map
  by_cases hsmall : w < 3 ∨ h < 3
  · simp [hsmall]
  · simp only [hsmall, if_false, List.length_replicate]
    refine List.eq_replicate.2 ⟨by simp, ?_⟩
    intro b hb
    rw [List.mem_map] at hb
    obtain ⟨idx, hidx, rfl⟩ := hb
    rw [List.mem_range] at hidx
    by_cases hint : 1 ≤ idx / w ∧ idx / w < h - 1 ∧ 1 ≤ idx % w ∧ idx % w < w - 1
    · simp only [hint, if_true]
      obtain ⟨hy1, hy2, hx1, hx2⟩ := hint
      have hmax : (idx / w + 1) * w + (idx % w + 1) < w * h := by
        have ha : idx / w + 1 ≤ h - 1 := by omega
        have hb2 : idx % w + 1 ≤ w - 1 := by omega
        have hm := Nat.mul_le_mul_right w ha
        have hwh : (h - 1) * w + w = w * h := by
          have h1 : h - 1 + 1 = h := by omega
          calc (h - 1) * w + w = (h - 1 + 1) * w := by ring
            _ = h * w := by rw [h1]
            _ = w * h := Nat.mul_comm h w
        omega
      have hle : ∀ a b2 : Nat, a ≤ idx / w + 1 → b2 ≤ idx % w + 1 →
          (List.replicate (w * h) c).getD (a * w + b2) 0 = c := by
        intro a b2 haa hbb
        refine getD_replicate_of_lt _ _ _ ?_
        have hm := Nat.mul_le_mul_right w haa
        omega
      rw [hle _ _ (by omega) (by omega), hle _ _ (by omega) (by omega),
        hle _ _ (by omega) (by omega), hle _ _ (by omega) (by omega),
        hle _ _ (by omega) (by omega), hle _ _ (by omega) (by omega),
        hle _ _ (by omega) (by omega), hle _ _ (by omega) (by omega)]
      have hgx : (-1) * c + 1 * c + (-2) * c + 2 * c + (-1) * c + 1 * c = 0 := by
        ring
      have hgy : (-1) * c + (-2) * c + (-1) * c + 1 * c + 2 * c + 1 * c = 0 := by
        ring
      rw [hgx, hgy]
      have hmag : sqrtQ ((0 : ℚ) * 0 + 0 * 0) = 0 := by norm_num [sqrtQ]
      rw [hmag]
      have hnorm : clampQ ((0 : ℚ) / 4) 0 1 = 0 := by norm_num [clampQ]
      rw [hnorm]
      exact ite_self 0
    · simp only [hint, if_false]

/-- Length of the flat RGBA byte buffer. -/
lemma bytesOfPixels_length (ps : List Rgba) :
    (bytesOfPixels ps).length = 4 * ps.length := by
  induction ps with
  | nil => simp [bytesOfPixels]
  | cons p rest ih =>
    simp only [bytesOfPixels, List.length_cons, ih]
    ring

/-- Resizing yields exactly the target pixel count. -/
lemma resize_exact_pixels_length (img : DynamicImage) (w h : Nat) :
    (resize_exact img w h).pixels.length = w * h := by
  simp [resize_exact]

/-- Luminance extraction yields one sample per pixel. -/
lemma extract_luma_length (img : DynamicImage) (invert : Bool) :
    (extract_luma img invert).length = img.pixels.length := by
  simp [extract_luma, DynamicImage.to_luma32f]

/-- The contrast/brightness pass preserves the sample count. -/
lemma apply_contrast_and_brightness_length (values : List ℚ) (c b : ℚ) :
    (apply_contrast_and_brightness values c b).length = values.length := by
  unfold apply_contrast_and_brightness
  split <;> simp

/-- The Sobel pass preserves the sample count. -/
lemma sobel_map_length (values : List ℚ) (w h : Nat) (t : ℚ) :
    (sobel_map values w h t).length = values.length := by
  unfold sobel_map
  dsimp only
  split <;> simp

/-- The glyph mapper yields one cell per intensity sample. -/
lemma map_intensity_cells_length (g : Gradient) (intensities : List ℚ)
    (w h : Nat) :
    (map_intensity g intensities w h).cells.length = intensities.length := by
  simp [map_intensity]

/-- Reading the flat byte buffer at offsets 4i..4i+3 yields the four
channels of pixel i. -/
lemma bytesOfPixels_getD (ps : List Rgba) (i : Nat) (h : i < ps.length) :
    (bytesOfPixels ps).getD (i * 4) 0 = (ps.getD i default).r ∧
    (bytesOfPixels ps).getD (i * 4 + 1) 0 = (ps.getD i default).g ∧
    (bytesOfPixels ps).getD (i * 4 + 2) 0 = (ps.getD i default).b ∧
    (bytesOfPixels ps).getD (i * 4 + 3) 0 = (ps.getD i default).a := by
  induction ps generalizing i with
  | nil => simp at h
  | cons p rest ih =>
    cases i with
    | zero => simp [bytesOfPixels]
    | succ i' =>
      have h' : i' < rest.length := by simpa using h
      obtain ⟨h1, h2, h3, h4⟩ := ih i' h'
      have hsplit : bytesOfPixels (p :: rest) =
          [p.r, p.g, p.b, p.a] ++ bytesOfPixels rest := rfl
      have key : ∀ n : Nat,
          ([p.r, p.g, p.b, p.a] ++ bytesOfPixels rest).getD (4 + n) 0 =
            (bytesOfPixels rest).getD n 0 := by
        intro n
        rw [List.getD_append_right _ _ _ _ (by simp)]
        simp
      refine ⟨?_, ?_, ?_, ?_⟩
      · rw [hsplit, show (i' + 1) * 4 = 4 + i' * 4 by ring, key,
          List.getD_cons_succ, h1]
      · rw [hsplit, show (i' + 1) * 4 + 1 = 4 + (i' * 4 + 1) by ring, key,
          List.getD_cons_succ, h2]
      · rw [hsplit, show (i' + 1) * 4 + 2 = 4 + (i' * 4 + 2) by ring, key,
          List.getD_cons_succ, h3]
      · rw [hsplit, show (i' + 1) * 4 + 3 = 4 + (i' * 4 + 3) by ring, key,
          List.getD_cons_succ, h4]

/-- The glyph written by the color/alpha overlay of `render_image` at cell i:
foreground and alpha come from pixel i of the resized raster, and the glyph
is blanked to a space when the alpha is at or below the transparency
threshold. -/
lemma overlay_cell_spec (resized : DynamicImage) (gradient : Gradient) (I : List ℚ)
    (w h : Nat) (hIlen : I.length = resized.pixels.length) (i : Nat)
    (hi : i < I.length) :
    (((map_intensity gradient I w h).cells.mapIdx fun idx (cell : CellGlyph) =>
        let start := idx * 4
        let r := resized.to_rgba8.getD start 0
        let g := resized.to_rgba8.getD (start + 1) 0
        let b := resized.to_rgba8.getD (start + 2) 0
        let alpha := clampQ ((resized.to_rgba8.getD (start + 3) 0 : ℚ) / 255) 0 1
        let cell := { cell with fg := (r, g, b), alpha := alpha }
        if alpha ≤ TRANSPARENT_ALPHA_THRESHOLD then { cell with ch := ' ' }
        else cell).getD i default).fg =
      ((resized.pixels.getD i default).r, (resized.pixels.getD i default).g,
        (resized.pixels.getD i default).b) ∧
    (((map_intensity gradient I w h).cells.mapIdx fun idx (cell : CellGlyph) =>
        let start := idx * 4
        let r := resized.to_rgba8.getD start 0
        let g := resized.to_rgba8.getD (start + 1) 0
        let b := resized.to_rgba8.getD (start + 2) 0
        let alpha := clampQ ((resized.to_rgba8.getD (start + 3) 0 : ℚ) / 255) 0 1
        let cell := { cell with fg := (r, g, b), alpha := alpha }
        if alpha ≤ TRANSPARENT_ALPHA_THRESHOLD then { cell with ch := ' ' }
        else cell).getD i default).alpha =
      clampQ (((resized.pixels.getD i default).a : ℚ) / 255) 0 1 ∧
    ((((map_intensity gradient I w h).cells.mapIdx fun idx (cell : CellGlyph) =>
        let start := idx * 4
        let r := resized.to_rgba8.getD start 0
        let g := resized.to_rgba8.getD (start + 1) 0
        let b := resized.to_rgba8.getD (start + 2) 0
        let alpha := clampQ ((resized.to_rgba8.getD (start + 3) 0 : ℚ) / 255) 0 1
        let cell := { cell with fg := (r, g, b), alpha := alpha }
        if alpha ≤ TRANSPARENT_ALPHA_THRESHOLD then { cell with ch := ' ' }
        else cell).getD i default).alpha ≤ TRANSPARENT_ALPHA_THRESHOLD →
      (((map_intensity gradient I w h).cells.mapIdx fun idx (cell : CellGlyph) =>
        let start := idx * 4
        let r := resized.to_rgba8.getD start 0
        let g := resized.to_rgba8.getD (start + 1) 0
        let b := resized.to_rgba8.getD (start + 2) 0
        let alpha := clampQ ((resized.to_rgba8.getD (start + 3) 0 : ℚ) / 255) 0 1
        let cell := { cell with fg := (r, g, b), alpha := alpha }
        if alpha ≤ TRANSPARENT_ALPHA_THRESHOLD then { cell with ch := ' ' }
        else cell).getD i default).ch = ' ') := by
  have hip : i < resized.pixels.length := by omega
  have hic : i < (map_intensity gradient I w h).cells.length := by
    rw [map_intensity_cells_length]; omega
  have him : i < ((map_intensity gradient I w h).cells.mapIdx
      fun idx (cell : CellGlyph) =>
        let start := idx * 4
        let r := resized.to_rgba8.getD start 0
        let g := resized.to_rgba8.getD (start + 1) 0
        let b := resized.to_rgba8.getD (start + 2) 0
        let alpha := clampQ ((resized.to_rgba8.getD (start + 3) 0 : ℚ) / 255) 0 1
        let cell := { cell with fg := (r, g, b), alpha := alpha }
        if alpha ≤ TRANSPARENT_ALPHA_THRESHOLD then { cell with ch := ' ' }
        else cell).length := by
    rw [List.length_mapIdx, map_intensity_cells_length]; omega
  rw [List.getD_eq_get _ _ him, List.get_mapIdx _ _ _ hic]
  obtain ⟨hr, hg, hb, ha4⟩ := bytesOfPixels_getD resized.pixels i hip
  dsimp only
  by_cases halpha :
      clampQ ((resized.to_rgba8.getD (i * 4 + 3) 0 : ℚ) / 255) 0 1 ≤
        TRANSPARENT_ALPHA_THRESHOLD
  · rw [if_pos halpha]
    exact ⟨by rw [show resized.to_rgba8 = bytesOfPixels resized.pixels from rfl,
        hr, hg, hb],
      by rw [show resized.to_rgba8 = bytesOfPixels resized.pixels from rfl, ha4],
      fun _ => rfl⟩
  · rw [if_neg halpha]
    refine ⟨by rw [show resized.to_rgba8 = bytesOfPixels resized.pixels from rfl,
        hr, hg, hb],
      by rw [show resized.to_rgba8 = bytesOfPixels resized.pixels from rfl, ha4],
      fun hch => absurd ?_ halpha⟩
    rw [show resized.to_rgba8 = bytesOfPixels resized.pixels from rfl, ha4]
    rw [show resized.to_rgba8 = bytesOfPixels resized.pixels from rfl, ha4] at hch
    exact hch

/-- C1 (amended): `render_image` applies the true-color overlay
unconditionally — regardless of the requested `ColorMode`.  Whenever a
render succeeds, the same output is produced under any color mode, and
every cell's foreground carries the resized raster's RGB at that cell, its
alpha is the raster's normalized alpha, and the glyph is blanked to a
space whenever that alpha is at or below the transparency threshold
0.001.  (`options.color_mode` is never consulted by `render_image`.) -/
theorem render_image_overlay_unconditional (image : DynamicImage)
    (layout : LayoutPolicy) (options : AsciiOptions) (m : ColorMode)
    (out : RenderOutput) (hout : render_image image layout options = .ok out) :
    render_image image layout { options with color_mode := m } = .ok out ∧
    ∀ i, i < out.grid.cells.length →
      ((out.grid.cells.getD i default).fg =
        (((resize_exact image out.geometry.columns out.geometry.rows).pixels.getD
            i default).r,
         ((resize_exact image out.geometry.columns out.geometry.rows).pixels.getD
            i default).g,
         ((resize_exact image out.geometry.columns out.geometry.rows).pixels.getD
            i default).b) ∧
      (out.grid.cells.getD i default).alpha =
        clampQ ((((resize_exact image out.geometry.columns
            out.geometry.rows).pixels.getD i default).a : ℚ) / 255) 0 1 ∧
      ((out.grid.cells.getD i default).alpha ≤ TRANSPARENT_ALPHA_THRESHOLD →
        (out.grid.cells.getD i default).ch = ' ')) := by
  refine ⟨hout, ?_⟩
  unfold render_image at hout
  simp only [DynamicImage.dimensions] at hout
  cases hd : layout.derive image.width image.height options.font_aspect with
  | none => rw [hd] at hout; cases hout
  | some geometry =>
    rw [hd] at hout
    dsimp only at hout
    set resized := resize_exact image geometry.columns geometry.rows with hres
    set lum := apply_contrast_and_brightness (extract_luma resized options.invert)
      options.contrast options.brightness with hlumdef
    have hplen : resized.pixels.length = geometry.columns * geometry.rows :=
      resize_exact_pixels_length image geometry.columns geometry.rows
    have hblen : resized.to_rgba8.length = 4 * resized.pixels.length :=
      bytesOfPixels_length resized.pixels
    have hlum : lum.length = resized.pixels.length := by
      rw [hlumdef, apply_contrast_and_brightness_length, extract_luma_length]
    cases hedge : options.edge_mode with
    | None =>
      rw [hedge] at hout
      dsimp only at hout
      have hcond : resized.to_rgba8.length / 4 =
          (map_intensity options.gradient lum geometry.columns
            geometry.rows).cells.length := by
        rw [hblen, map_intensity_cells_length, hlum]
        omega
      rw [if_pos hcond, Except.ok.injEq] at hout
      subst hout
      dsimp only
      intro i hi
      rw [List.length_mapIdx, map_intensity_cells_length] at hi
      exact overlay_cell_spec resized options.gradient lum geometry.columns
        geometry.rows hlum i hi
    | Sobel t =>
      rw [hedge] at hout
      dsimp only at hout
      have hslen : (sobel_map lum geometry.columns geometry.rows t).length =
          resized.pixels.length := by
        rw [sobel_map_length, hlum]
      have hcond : resized.to_rgba8.length / 4 =
          (map_intensity options.gradient
            (sobel_map lum geometry.columns geometry.rows t)
            geometry.columns geometry.rows).cells.length := by
        rw [hblen, map_intensity_cells_length, hslen]
        omega
      rw [if_pos hcond, Except.ok.injEq] at hout
      subst hout
      dsimp only
      intro i hi
      rw [List.length_mapIdx, map_intensity_cells_length] at hi
      exact overlay_cell_spec resized options.gradient
        (sobel_map lum geometry.columns geometry.rows t) geometry.columns
        geometry.rows hslen i hi

/-- A 1×1 image whose only pixel is fully transparent red. -/
def cImage : DynamicImage := ⟨1, 1, [⟨255, 0, 0, 0⟩]⟩

/-- Default options with the binary gradient, font aspect 1 and (by
default) `ColorMode::Luminance`. -/
def cOptions : AsciiOptions :=
  { AsciiOptions.default with gradient := Gradient.binary, font_aspect := 1 }

/-- The render output of `cImage` under `cOptions`: one cell carrying the
raster's red foreground, alpha 0, and a blanked glyph. -/
def cOut : RenderOutput := ⟨⟨1, 1, [⟨' ', (255, 0, 0), none, 0⟩]⟩, ⟨1, 1, 1⟩, 1⟩

set_option maxHeartbeats 2000000 in
/-- Evaluation of `render_image` on the transparent 1×1 red image with
luminance color mode requested. -/
lemma render_cImage_eval :
    render_image cImage (LayoutPolicy.FixedColumns 1) cOptions = Except.ok cOut := by
  have hgeom : (LayoutPolicy.FixedColumns 1).derive 1 1 1 =
      some ⟨1, 1, 1⟩ := by
    norm_num [LayoutPolicy.derive, u16OfZ, roundQ]
  have hres : resize_exact cImage 1 1 = cImage := by
    norm_num [resize_exact, cImage, List.range_succ]
  have hluma : extract_luma cImage false = [(1063/5000 : ℚ)] := by
    norm_num [extract_luma, DynamicImage.to_luma32f, cImage, clampQ]
  have hadj : apply_contrast_and_brightness [(1063/5000 : ℚ)] 0 0 =
      [(1063/5000 : ℚ)] := by
    simp [apply_contrast_and_brightness]
  have hmapi : map_intensity Gradient.binary [(1063/5000 : ℚ)] 1 1 =
      ⟨1, 1, [⟨'0', (54, 54, 54), none, 1⟩]⟩ := by
    unfold map_intensity
    simp only [List.map_cons, List.map_nil]
    norm_num [show Gradient.binary.chars = ['0', '1'] from rfl,
      CellGlyph.new, clampQ, u8OfZ, usizeOfZ, roundQ,
      show Int.toNat 54 = 54 from rfl, show Int.toNat 0 = 0 from rfl]
  have hbytes : cImage.to_rgba8 = [255, 0, 0, 0] := rfl
  unfold render_image
  simp only [DynamicImage.dimensions, show cImage.width = 1 from rfl,
    show cImage.height = 1 from rfl, show cOptions.font_aspect = 1 from rfl,
    hgeom]
  rw [hres]
  simp only [show cOptions.invert = false from rfl,
    show cOptions.contrast = (0 : ℚ) from rfl,
    show cOptions.brightness = (0 : ℚ) from rfl,
    show cOptions.edge_mode = EdgeMode.None from rfl,
    show cOptions.gradient = Gradient.binary from rfl,
    hluma, hadj, hmapi, hbytes]
  norm_num [List.mapIdx_singleton, clampQ, TRANSPARENT_ALPHA_THRESHOLD, cOut]

/-- C1 counterexample: rendering the transparent 1×1 red image with
`ColorMode::Luminance` requested still yields a cell whose foreground is
the raster's true RGB (255,0,0), whose alpha is 0 (not the glyph mapper's
1), and whose glyph is blanked — the claimed "only if ColorAlpha"
conditionality of the overlay does not hold. -/
theorem render_image_luminance_overlay_counterexample :
    cOptions.color_mode = ColorMode.Luminance ∧
    (render_image cImage (LayoutPolicy.FixedColumns 1) cOptions).map
        (fun out => out.grid.cells.map fun cell => (cell.ch, cell.fg, cell.alpha)) =
      Except.ok [(' ', (255, 0, 0), (0 : ℚ))] ∧
    (0 : ℚ) ≠ 1 := by
  refine ⟨rfl, ?_, by norm_num⟩
  rw [render_cImage_eval]
  norm_num [cOut, Except.map]

/-- Witness for C1 (amended) at the transparent 1×1 red image, switching
the color mode to `ColorAlpha`. -/
theorem render_image_overlay_unconditional_witness :
    render_image cImage (LayoutPolicy.FixedColumns 1) cOptions = Except.ok cOut ∧
    (render_image cImage (LayoutPolicy.FixedColumns 1)
        { cOptions with color_mode := ColorMode.ColorAlpha } = .ok cOut ∧
      ∀ i, i < cOut.grid.cells.length →
        ((cOut.grid.cells.getD i default).fg =
          (((resize_exact cImage cOut.geometry.columns
              cOut.geometry.rows).pixels.getD i default).r,
           ((resize_exact cImage cOut.geometry.columns
              cOut.geometry.rows).pixels.getD i default).g,
           ((resize_exact cImage cOut.geometry.columns
              cOut.geometry.rows).pixels.getD i default).b) ∧
        (cOut.grid.cells.getD i default).alpha =
          clampQ ((((resize_exact cImage cOut.geometry.columns
              cOut.geometry.rows).pixels.getD i default).a : ℚ) / 255) 0 1 ∧
        ((cOut.grid.cells.getD i default).alpha ≤ TRANSPARENT_ALPHA_THRESHOLD →
          (cOut.grid.cells.getD i default).ch = ' '))) :=
  ⟨render_cImage_eval,
    render_image_overlay_unconditional cImage (LayoutPolicy.FixedColumns 1)
      cOptions ColorMode.ColorAlpha cOut render_cImage_eval⟩
